import Mathlib

/-!
Verification of the Code-Whisperer pattern-analysis core.

This file gives a shallow embedding, in Lean 4, of the parts of the
`code-whisperer-core` Rust crate that the specification claims talk about:

* `ast_parser.rs`      : `AstParser::parse_code` and the line-based fallback
* `pattern_extractor.rs`: `PatternExtractor::extract_patterns`,
  `detect_indentation`, `detect_brace_style`, `detect_naming_style`
* `pattern_scoring_engine.rs`: `PatternScoringEngine::score_patterns` and its
  sub-score and composite-score computations
* `context_aware_filter.rs` : the three TTL caches
  (`ContextAnalyzer::analyze_context`, `PreferenceEngine::derive_preferences`,
  `ProjectAnalyzer::analyze_project`)
* `suggestion_generation_engine.rs`: `calculate_confidence_metrics`

Modelling conventions:

* Rust `f32`/`f64` scores are modelled by `ℚ`.  The only genuinely real-valued
  operation in the modelled code, the exponential decay
  `(-days_old / 7.0).exp()` inside `calculate_recency_score`, is abstracted by
  an explicit function parameter `decay : ℤ → ℚ`; it is only reached when a
  pattern identity already has history.
* Unix timestamps (`chrono::Utc::now().timestamp()`, seconds) are modelled by
  an explicit `now : ℤ` parameter.
* The third-party grammars (swc, rustpython, syn) are external to the
  repository; `parse_code` is parameterised by three oracle functions, one per
  registered grammar, each `String → Except String Unit` (the extractor code
  under scrutiny never reads the parsed tree content: all of its per-language
  visitors are empty stubs).
* `HashMap` iteration order (used by `detect_indentation` through
  `Iterator::max_by_key`) is unspecified in Rust; it is modelled by an explicit
  `keyOrder : List ℕ` parameter ranging over the permutations of the distinct
  key set, with `Iterator::max_by_key` returning the last maximal element.
-/

namespace CodeWhisperer

/-! ## Character classes and the naming regexes (pattern_extractor.rs, lazy_static block)

`CAMEL_CASE      = ^[a-z][a-zA-Z0-9]*$`
`PASCAL_CASE     = ^[A-Z][a-zA-Z0-9]*$`
`SNAKE_CASE      = ^[a-z][a-z0-9_]*$`
`KEBAB_CASE      = ^[a-z][a-z0-9-]*$`
`SCREAMING_SNAKE = ^[A-Z][A-Z0-9_]*$`
All five are anchored, so `is_match` is a full-string match. -/

def isLowerAlpha (c : Char) : Bool := 'a' ≤ c && c ≤ 'z'

def isUpperAlpha (c : Char) : Bool := 'A' ≤ c && c ≤ 'Z'

def isDigitChar (c : Char) : Bool := '0' ≤ c && c ≤ '9'

def camelCaseMatch (s : String) : Bool :=
  match s.toList with
  | [] => false
  | c :: cs => isLowerAlpha c && cs.all (fun d => isLowerAlpha d || isUpperAlpha d || isDigitChar d)

def pascalCaseMatch (s : String) : Bool :=
  match s.toList with
  | [] => false
  | c :: cs => isUpperAlpha c && cs.all (fun d => isLowerAlpha d || isUpperAlpha d || isDigitChar d)

def snakeCaseMatch (s : String) : Bool :=
  match s.toList with
  | [] => false
  | c :: cs => isLowerAlpha c && cs.all (fun d => isLowerAlpha d || isDigitChar d || d = '_')

def kebabCaseMatch (s : String) : Bool :=
  match s.toList with
  | [] => false
  | c :: cs => isLowerAlpha c && cs.all (fun d => isLowerAlpha d || isDigitChar d || d = '-')

def screamingSnakeMatch (s : String) : Bool :=
  match s.toList with
  | [] => false
  | c :: cs => isUpperAlpha c && cs.all (fun d => isUpperAlpha d || isDigitChar d || d = '_')

/-! ## NamingStyle and detect_naming_style (pattern_extractor.rs 287-328) -/

inductive NamingStyle where
  | CamelCase
  | PascalCase
  | SnakeCase
  | KebabCase
  | ScreamingSnake
  | Mixed
  | Unknown
deriving DecidableEq, Repr

/-- The five counters of `detect_naming_style`.  The source walks the name
list once with an exclusive `if / else if` chain, so a name is counted for the
first regex it matches, in the order camel, pascal, snake, kebab, screaming. -/
def camelCount (names : List String) : ℕ :=
  names.countP (fun n => camelCaseMatch n)

def pascalCount (names : List String) : ℕ :=
  names.countP (fun n => !camelCaseMatch n && pascalCaseMatch n)

def snakeCount (names : List String) : ℕ :=
  names.countP (fun n => !camelCaseMatch n && !pascalCaseMatch n && snakeCaseMatch n)

def kebabCount (names : List String) : ℕ :=
  names.countP (fun n =>
    !camelCaseMatch n && !pascalCaseMatch n && !snakeCaseMatch n && kebabCaseMatch n)

def screamingCount (names : List String) : ℕ :=
  names.countP (fun n =>
    !camelCaseMatch n && !pascalCaseMatch n && !snakeCaseMatch n && !kebabCaseMatch n &&
      screamingSnakeMatch n)

/-- `counts.iter().max().unwrap()` over the array of the five counters. -/
def maxStyleCount (names : List String) : ℕ :=
  max (camelCount names)
    (max (pascalCount names)
      (max (snakeCount names) (max (kebabCount names) (screamingCount names))))

/-- `PatternExtractor::detect_naming_style` (pattern_extractor.rs 287-328). -/
def detect_naming_style (names : List String) : NamingStyle :=
  if names.isEmpty then NamingStyle.Unknown
  else if camelCount names = maxStyleCount names then NamingStyle.CamelCase
  else if pascalCount names = maxStyleCount names then NamingStyle.PascalCase
  else if snakeCount names = maxStyleCount names then NamingStyle.SnakeCase
  else if kebabCount names = maxStyleCount names then NamingStyle.KebabCase
  else if screamingCount names = maxStyleCount names then NamingStyle.ScreamingSnake
  else NamingStyle.Mixed

/-- The exclusive match count credited to each style by the counting loop
(`Mixed` and `Unknown` are never counted). -/
def styleCount (names : List String) : NamingStyle → ℕ
  | NamingStyle.CamelCase => camelCount names
  | NamingStyle.PascalCase => pascalCount names
  | NamingStyle.SnakeCase => snakeCount names
  | NamingStyle.KebabCase => kebabCount names
  | NamingStyle.ScreamingSnake => screamingCount names
  | _ => 0

/-- Position of each style in the tie-breaking `if / else if` chain. -/
def stylePriority : NamingStyle → ℕ
  | NamingStyle.CamelCase => 0
  | NamingStyle.PascalCase => 1
  | NamingStyle.SnakeCase => 2
  | NamingStyle.KebabCase => 3
  | NamingStyle.ScreamingSnake => 4
  | _ => 5

/-! ## String primitives

The Rust string operations used by the modelled code (`to_lowercase`,
`lines`, `trim`, `ends_with`, `contains`, integer formatting) are modelled
directly on the underlying character list, by structural recursion.  All
modelled inputs are ASCII, where these agree with the Unicode-aware Rust
versions. -/

/-- Rust `str::to_lowercase` (ASCII fragment). -/
def lowerString (s : String) : String := String.mk (s.data.map Char.toLower)

/-- Split a character list at every occurrence of the separator `c`. -/
def splitChar (c : Char) : List Char → List (List Char)
  | [] => [[]]
  | a :: t =>
    match splitChar c t with
    | [] => [[]]
    | h :: r => if a = c then [] :: h :: r else (a :: h) :: r

/-- Rust `str::lines()`: split on a newline; a trailing carriage return is
stripped from each line; the final empty segment produced by a trailing
newline is dropped; the empty string yields no lines. -/
def rustLines (s : String) : List String :=
  if s.data.isEmpty then []
  else
    let parts := splitChar '\n' s.data
    let parts := if parts.getLast? = some [] then parts.dropLast else parts
    parts.map fun l =>
      String.mk (if l.getLast? = some '\r' then l.dropLast else l)

/-- Rust `str::trim` (ASCII whitespace fragment). -/
def trimString (s : String) : String :=
  String.mk
    (((s.data.dropWhile fun c => c.isWhitespace).reverse.dropWhile fun c =>
        c.isWhitespace).reverse)

/-- Rust `str::ends_with(OPEN_BRACE)`. -/
def endsWithBrace (s : String) : Bool := s.data.getLast? = some '\x7b'

/-! ## Indentation detection (pattern_extractor.rs 164-199)

`SPACES_INDENT = ^( +)` matches exactly the lines whose first character is a
space, capturing the maximal leading run of spaces; `TABS_INDENT = ^(\t+)`
matches the lines whose first character is a tab.  The per-size counters live
in a `HashMap`; `counts.iter().max_by_key(...)` scans that map in its
unspecified iteration order and returns the **last** entry with the maximal
count.  The iteration order is modelled by the `keyOrder` parameter, a
permutation of the distinct run-lengths. -/

def spaceRun (s : String) : ℕ := (s.toList.takeWhile (fun c => c = ' ')).length

def startsWithSpace (s : String) : Bool :=
  match s.toList with
  | ' ' :: _ => true
  | _ => false

def startsWithTab (s : String) : Bool :=
  match s.toList with
  | '\t' :: _ => true
  | _ => false

def spaceSizes (lines : List String) : List ℕ :=
  (lines.filter startsWithSpace).map spaceRun

def spaceIndents (lines : List String) : ℕ := lines.countP startsWithSpace

def tabIndents (lines : List String) : ℕ :=
  lines.countP (fun l => !startsWithSpace l && startsWithTab l)

inductive IndentationType where
  | Spaces
  | Tabs
  | Mixed
deriving DecidableEq, Repr

inductive BraceStyle where
  | SameLine
  | NextLine
  | Mixed
deriving DecidableEq, Repr

/-- `Iterator::max_by_key`: the last element attaining the maximal key, `none`
on an empty iterator. -/
def lastArgmax (f : ℕ → ℕ) : List ℕ → Option ℕ
  | [] => none
  | k :: ks => some (ks.foldl (fun b k2 => if f b ≤ f k2 then k2 else b) k)

/-- The `indent_size` computation of `detect_indentation`: the most frequent
space run-length, taken over the map iteration order `keyOrder`; `4` when no
line is space-indented (and in the vacuous `unwrap_or` case). -/
def detect_indent_size (keyOrder : List ℕ) (sizes : List ℕ) : ℕ :=
  if sizes.isEmpty then 4
  else (lastArgmax (fun k => sizes.count k) keyOrder).getD 4

/-- `keyOrder` ranges over the possible `HashMap` iteration orders: the
permutations of the set of distinct space run-lengths. -/
def validKeyOrder (lines : List String) (keyOrder : List ℕ) : Prop :=
  keyOrder.Perm (spaceSizes lines).dedup

/-- `PatternExtractor::detect_indentation` (pattern_extractor.rs 164-199). -/
def detect_indentation (keyOrder : List ℕ) (lines : List String) : IndentationType × ℕ :=
  let ty :=
    if spaceIndents lines > tabIndents lines then IndentationType.Spaces
    else if tabIndents lines > spaceIndents lines then IndentationType.Tabs
    else IndentationType.Mixed
  (ty, detect_indent_size keyOrder (spaceSizes lines))

/-! ## Brace-style detection (pattern_extractor.rs 202-225) -/

/-- Rust `trim_end_matches(OPEN_BRACE)`: drop every trailing open brace. -/
def trimEndBraces (s : String) : String :=
  String.mk ((s.toList.reverse.dropWhile (fun c => c = '\x7b')).reverse)

/-- The `(same_line_count, next_line_count)` accumulation over adjacent line
pairs.  The next-line test is checked first, exactly as in the source. -/
def braceCounts (lines : List String) : ℕ × ℕ :=
  (lines.zip lines.tail).foldl
    (fun (acc : ℕ × ℕ) (pr : String × String) =>
      let current := trimString pr.1
      let next := trimString pr.2
      if next = "\x7b" && !current.data.isEmpty && !endsWithBrace current then
        (acc.1, acc.2 + 1)
      else if endsWithBrace current && !(trimString (trimEndBraces current)).data.isEmpty then
        (acc.1 + 1, acc.2)
      else acc)
    (0, 0)

/-- `PatternExtractor::detect_brace_style` (pattern_extractor.rs 202-225). -/
def detect_brace_style (lines : List String) : BraceStyle :=
  let c := braceCounts lines
  if c.2 > c.1 then BraceStyle.NextLine
  else if c.1 > c.2 then BraceStyle.SameLine
  else BraceStyle.Mixed

/-- `PatternExtractor::calculate_average_line_length` (integer division on
byte lengths; the modelled inputs are ASCII, where `String.length` agrees). -/
def calculate_average_line_length (lines : List String) : ℕ :=
  if lines.isEmpty then 80
  else ((lines.map fun l => l.data.length).sum) / lines.length

/-- `StyleMetrics` (pattern_extractor.rs 20-28).  The two regex-counting
booleans `space_around_operators` and `trailing_commas` are omitted: no claim
refers to them and nothing downstream in the modelled code reads them. -/
structure StyleMetrics where
  indentation_type : IndentationType
  indentation_size : ℕ
  brace_style : BraceStyle
  line_length_preference : ℕ
deriving DecidableEq, Repr

/-- `PatternExtractor::analyze_style_metrics` (pattern_extractor.rs 144-161). -/
def analyze_style_metrics (keyOrder : List ℕ) (code : String) : StyleMetrics :=
  let lines := rustLines code
  let indentation := detect_indentation keyOrder lines
  { indentation_type := indentation.1
    indentation_size := indentation.2
    brace_style := detect_brace_style lines
    line_length_preference := calculate_average_line_length lines }

/-! ## Remaining extraction data model (pattern_extractor.rs, lib.rs) -/

structure NamingConventions where
  function_naming : NamingStyle
  variable_naming : NamingStyle
  class_naming : NamingStyle
  constant_naming : NamingStyle
  file_naming : NamingStyle
deriving DecidableEq, Repr

inductive FileOrganization where
  | ImportsFirst
  | ClassesFirst
  | FunctionsFirst
  | Mixed
deriving DecidableEq, Repr

inductive ClassStructure where
  | PropertiesFirst
  | ConstructorFirst
  | PublicMethodsFirst
  | Mixed
deriving DecidableEq, Repr

inductive ImportStyle where
  | Grouped
  | Alphabetical
  | ByType
  | Mixed
deriving DecidableEq, Repr

structure StructurePatterns where
  preferred_file_organization : FileOrganization
  function_length_preference : ℕ
  class_structure_preference : ClassStructure
  import_organization : ImportStyle
deriving DecidableEq, Repr

inductive PatternType where
  | FunctionDefinition
  | ClassDefinition
  | LoopConstruct
  | ConditionalStatement
  | VariableDeclaration
  | Custom (s : String)
deriving DecidableEq, Repr

/-- `CodingPattern` (lib.rs 124-134), restricted to its identifying fields:
the other fields (content, frequency, last_seen, source files, feedback) are
never read by the modelled code, and `PatternExtractor` never constructs a
`CodingPattern` at all (its five per-category extractors are empty stubs). -/
structure CodingPattern where
  id : String
  pattern_type : PatternType
  language : String
  confidence : ℚ
deriving DecidableEq, Repr

structure PatternAnalysis where
  patterns : List CodingPattern
  style_metrics : StyleMetrics
  naming_conventions : NamingConventions
  structure_patterns : StructurePatterns
deriving DecidableEq, Repr

/-! ## AstParser (ast_parser.rs)

The per-language syntax trees come from third-party crates (swc, rustpython,
syn) outside this repository; every modelled consumer ignores their content
(`PatternExtractor` only dispatches on the variant), so the tree payload is
modelled as `Unit` and each grammar as an oracle `String → Except String Unit`
deciding acceptance. -/

inductive ParsedAst where
  | JavaScript (module : Unit)
  | Python (suite : Unit)
  | Rust (items : Unit)
  | Generic (lines : List String)
deriving DecidableEq, Repr

structure GrammarOracles where
  js : String → Except String Unit
  py : String → Except String Unit
  rs : String → Except String Unit

/-- `AstParser::parse_javascript` (ast_parser.rs 49-65): wrap a grammar
rejection in the human-readable diagnostic prefix. -/
def parse_javascript (o : GrammarOracles) (code : String) : Except String ParsedAst :=
  match o.js code with
  | Except.ok m => Except.ok (ParsedAst.JavaScript m)
  | Except.error err => Except.error ("JavaScript parsing error: " ++ err)

/-- `AstParser::parse_python` (ast_parser.rs 67-72). -/
def parse_python (o : GrammarOracles) (code : String) : Except String ParsedAst :=
  match o.py code with
  | Except.ok m => Except.ok (ParsedAst.Python m)
  | Except.error err => Except.error ("Python parsing error: " ++ err)

/-- `AstParser::parse_rust` (ast_parser.rs 74-79). -/
def parse_rust (o : GrammarOracles) (code : String) : Except String ParsedAst :=
  match o.rs code with
  | Except.ok m => Except.ok (ParsedAst.Rust m)
  | Except.error err => Except.error ("Rust parsing error: " ++ err)

/-- `AstParser::parse_generic` (ast_parser.rs 81-84): the line-based fallback,
which always succeeds. -/
def parse_generic (code : String) : Except String ParsedAst :=
  Except.ok (ParsedAst.Generic (rustLines code))

/-- `AstParser::parse_code` (ast_parser.rs 40-47): dispatch on the lowercased
language tag; only unregistered tags reach the generic fallback. -/
def parse_code (o : GrammarOracles) (code language : String) : Except String ParsedAst :=
  if lowerString language = "javascript" ∨ lowerString language = "typescript" then
    parse_javascript o code
  else if lowerString language = "python" then parse_python o code
  else if lowerString language = "rust" then parse_rust o code
  else parse_generic code

/-! ## PatternExtractor::extract_patterns and its helpers -/

/-- `extract_js_names` (pattern_extractor.rs 332-334): an empty stub in the
source, so no names are collected. -/
def extract_js_names (_module : Unit) :
    List String × List String × List String × List String :=
  ([], [], [], [])

/-- `extract_python_names` (pattern_extractor.rs 336-338): empty stub. -/
def extract_python_names (_suite : Unit) :
    List String × List String × List String × List String :=
  ([], [], [], [])

/-- `extract_rust_names` (pattern_extractor.rs 340-342): empty stub. -/
def extract_rust_names (_items : Unit) :
    List String × List String × List String × List String :=
  ([], [], [], [])

/-- `PatternExtractor::analyze_naming_conventions` (pattern_extractor.rs
255-284).  Every branch leaves the four name pools empty, so each detected
style is `detect_naming_style []`. -/
def analyze_naming_conventions (ast : ParsedAst) (_language : String) : NamingConventions :=
  let names :=
    match ast with
    | ParsedAst.JavaScript m => extract_js_names m
    | ParsedAst.Python m => extract_python_names m
    | ParsedAst.Rust m => extract_rust_names m
    | ParsedAst.Generic _ => ([], [], [], [])
  { function_naming := detect_naming_style names.1
    variable_naming := detect_naming_style names.2.1
    class_naming := detect_naming_style names.2.2.1
    constant_naming := detect_naming_style names.2.2.2
    file_naming := NamingStyle.Unknown }

/-- `PatternExtractor::analyze_structure_patterns` (pattern_extractor.rs
345-352): constant defaults. -/
def analyze_structure_patterns (_ast : ParsedAst) (_code : String) (_language : String) :
    StructurePatterns :=
  { preferred_file_organization := FileOrganization.Mixed
    function_length_preference := 20
    class_structure_preference := ClassStructure.Mixed
    import_organization := ImportStyle.Mixed }

/-- `extract_function_patterns` (pattern_extractor.rs 355-358): stub, `Ok([])`. -/
def extract_function_patterns (_ast : ParsedAst) (_language : String) :
    Except String (List CodingPattern) :=
  Except.ok []

/-- `extract_class_patterns` (pattern_extractor.rs 361-364): stub, `Ok([])`. -/
def extract_class_patterns (_ast : ParsedAst) (_language : String) :
    Except String (List CodingPattern) :=
  Except.ok []

/-- `extract_variable_patterns` (pattern_extractor.rs 367-370): stub, `Ok([])`. -/
def extract_variable_patterns (_ast : ParsedAst) (_language : String) :
    Except String (List CodingPattern) :=
  Except.ok []

/-- `extract_control_flow_patterns` (pattern_extractor.rs 373-376): stub. -/
def extract_control_flow_patterns (_ast : ParsedAst) (_language : String) :
    Except String (List CodingPattern) :=
  Except.ok []

/-- `extract_error_handling_patterns` (pattern_extractor.rs 379-382): stub. -/
def extract_error_handling_patterns (_ast : ParsedAst) (_language : String) :
    Except String (List CodingPattern) :=
  Except.ok []

/-- `PatternExtractor::extract_patterns` (pattern_extractor.rs 123-141).
The parse error, if any, is propagated by `?`; the five per-category
extractors extend an initially empty pattern list. -/
def extract_patterns (o : GrammarOracles) (keyOrder : List ℕ) (code language : String) :
    Except String PatternAnalysis := do
  let ast ← parse_code o code language
  let base : PatternAnalysis :=
    { patterns := []
      style_metrics := analyze_style_metrics keyOrder code
      naming_conventions := analyze_naming_conventions ast language
      structure_patterns := analyze_structure_patterns ast code language }
  let fns ← extract_function_patterns ast language
  let cls ← extract_class_patterns ast language
  let vars ← extract_variable_patterns ast language
  let cf ← extract_control_flow_patterns ast language
  let eh ← extract_error_handling_patterns ast language
  pure { base with patterns := base.patterns ++ fns ++ cls ++ vars ++ cf ++ eh }

/-! ## Pattern scoring engine (pattern_scoring_engine.rs) -/

structure ScoringConfiguration where
  recency_weight : ℚ
  frequency_weight : ℚ
  context_weight : ℚ
  user_preference_weight : ℚ
  confidence_threshold : ℚ
  adaptive_learning_rate : ℚ
deriving DecidableEq, Repr

/-- `ScoringConfiguration::default` (pattern_scoring_engine.rs 80-91). -/
def defaultScoringConfiguration : ScoringConfiguration :=
  { recency_weight := 0.25
    frequency_weight := 0.25
    context_weight := 0.25
    user_preference_weight := 0.25
    confidence_threshold := 0.6
    adaptive_learning_rate := 0.1 }

structure PatternScore where
  pattern_id : String
  relevance_score : ℚ
  confidence_score : ℚ
  frequency_score : ℚ
  recency_score : ℚ
  context_score : ℚ
  user_preference_score : ℚ
  composite_score : ℚ
  last_updated : ℤ
  usage_count : ℕ
deriving DecidableEq, Repr

/-- `BehaviorAnalysis` (user_behavior_tracker.rs 15-21).  Its five component
records are never read by any modelled function (the scoring engine receives
the value and ignores it), so their payloads are modelled as `Unit`. -/
structure BehaviorAnalysis where
  coding_patterns : Unit
  preference_insights : Unit
  learning_progress : Unit
  context_awareness : Unit
  suggestion_feedback : Unit
deriving DecidableEq, Repr

/-- `ScoringContext` (pattern_scoring_engine.rs 70-78); the unread
`user_session_data` field is omitted. -/
structure ScoringContext where
  current_file_type : String
  current_function_context : Option String
  recent_patterns : List String
  time_of_day : ℤ
  project_context : String
deriving DecidableEq, Repr

/-- List-prefix test, by structural recursion. -/
def isPrefixList : List Char → List Char → Bool
  | [], _ => true
  | _ :: _, [] => false
  | a :: s, b :: t => a = b && isPrefixList s t

/-- Substring occurrence test over character lists. -/
def containsSub (hay needle : List Char) : Bool :=
  match hay with
  | [] => needle.isEmpty
  | _ :: t => isPrefixList needle hay || containsSub t needle

/-- Rust `str::contains`, used by `calculate_context_score`: substring test,
with the empty needle matching everywhere. -/
def strContains (s pat : String) : Bool := containsSub s.data pat.data

/-- The `format!("{:?}", style)` Debug rendering of a naming style. -/
def debugNamingStyle : NamingStyle → String
  | NamingStyle.CamelCase => "CamelCase"
  | NamingStyle.PascalCase => "PascalCase"
  | NamingStyle.SnakeCase => "SnakeCase"
  | NamingStyle.KebabCase => "KebabCase"
  | NamingStyle.ScreamingSnake => "ScreamingSnake"
  | NamingStyle.Mixed => "Mixed"
  | NamingStyle.Unknown => "Unknown"

/-- `format!("{:?}", indentation_type)`. -/
def debugIndentationType : IndentationType → String
  | IndentationType.Spaces => "Spaces"
  | IndentationType.Tabs => "Tabs"
  | IndentationType.Mixed => "Mixed"

/-- `format!("{:?}", brace_style)`. -/
def debugBraceStyle : BraceStyle → String
  | BraceStyle.SameLine => "SameLine"
  | BraceStyle.NextLine => "NextLine"
  | BraceStyle.Mixed => "Mixed"

/-- `PatternScoringEngine::calculate_style_relevance`
(pattern_scoring_engine.rs 273-282). -/
def calculate_style_relevance (style : NamingStyle) (context : ScoringContext) : ℚ :=
  let ft := context.current_file_type
  if (ft = "javascript" ∨ ft = "typescript") ∧ style = NamingStyle.CamelCase then 0.9
  else if ft = "python" ∧ style = NamingStyle.SnakeCase then 0.9
  else if ft = "rust" ∧ style = NamingStyle.SnakeCase then 0.9
  else if (ft = "java" ∨ ft = "csharp") ∧ style = NamingStyle.PascalCase then 0.9
  else 0.6

/-- The engine field `historical_patterns: HashMap<String, PatternScore>`,
modelled as its lookup function. -/
def Historical : Type := String → Option PatternScore

/-- `PatternScoringEngine::calculate_frequency_score`
(pattern_scoring_engine.rs 284-291). -/
def calculate_frequency_score (hist : Historical) (pattern_id : String) : ℚ :=
  match hist pattern_id with
  | some historical => min ((historical.usage_count : ℚ) / 100) 1
  | none => 0.1

/-- `PatternScoringEngine::calculate_recency_score`
(pattern_scoring_engine.rs 293-304).  The real-valued decay
`(-days_old / 7.0).exp()` is abstracted by `decay`, applied to the age in
seconds `now - last_updated`; new identities get the maximal score `1`. -/
def calculate_recency_score (hist : Historical) (now : ℤ) (decay : ℤ → ℚ)
    (pattern_id : String) : ℚ :=
  match hist pattern_id with
  | some historical => decay (now - historical.last_updated)
  | none => 1

/-- `PatternScoringEngine::calculate_context_score`
(pattern_scoring_engine.rs 306-320). -/
def calculate_context_score (pattern_id : String) (context : ScoringContext) : ℚ :=
  let score : ℚ := 0.5
  let score :=
    if context.recent_patterns.any (fun p => strContains p pattern_id) then score + 0.3
    else score
  let score :=
    if strContains pattern_id context.project_context then score + 0.2
    else score
  min score 1

/-- `PatternScoringEngine::calculate_user_preference_score`
(pattern_scoring_engine.rs 322-331).  The base `0.5` is unconditionally
incremented by `0.3` and capped at `1.0`; both arguments are ignored. -/
def calculate_user_preference_score (_pattern_id : String)
    (_user_behavior : BehaviorAnalysis) : ℚ :=
  let preference_score : ℚ := 0.5
  let preference_score := preference_score + 0.3
  min preference_score 1

/-- The `PatternScore` literal pushed by each of the three per-category
scoring passes (pattern_scoring_engine.rs 155-166, 169-180, 192-203, 206-217,
229-240); only the identity, relevance and confidence vary between pushes. -/
def freshScore (hist : Historical) (now : ℤ) (decay : ℤ → ℚ) (context : ScoringContext)
    (id : String) (relevance conf : ℚ) : PatternScore :=
  { pattern_id := id
    relevance_score := relevance
    confidence_score := conf
    frequency_score := calculate_frequency_score hist id
    recency_score := calculate_recency_score hist now decay id
    context_score := calculate_context_score id context
    user_preference_score := 0
    composite_score := 0
    last_updated := now
    usage_count := 1 }

/-- `PatternScoringEngine::score_naming_patterns`
(pattern_scoring_engine.rs 147-183). -/
def score_naming_patterns (hist : Historical) (now : ℤ) (decay : ℤ → ℚ)
    (nc : NamingConventions) (context : ScoringContext) : List PatternScore :=
  [ freshScore hist now decay context
      ("function_naming_style_" ++ debugNamingStyle nc.function_naming)
      (calculate_style_relevance nc.function_naming context) 0.8,
    freshScore hist now decay context
      ("variable_naming_style_" ++ debugNamingStyle nc.variable_naming)
      (calculate_style_relevance nc.variable_naming context) 0.8 ]

/-- `PatternScoringEngine::score_style_patterns`
(pattern_scoring_engine.rs 185-220). -/
def score_style_patterns (hist : Historical) (now : ℤ) (decay : ℤ → ℚ)
    (sm : StyleMetrics) (context : ScoringContext) : List PatternScore :=
  [ freshScore hist now decay context
      ("indentation_" ++ debugIndentationType sm.indentation_type ++ "_" ++
        Nat.repr sm.indentation_size)
      0.8 0.9,
    freshScore hist now decay context
      ("brace_style_" ++ debugBraceStyle sm.brace_style) 0.8 0.9 ]

/-- `PatternScoringEngine::score_structural_patterns`
(pattern_scoring_engine.rs 222-243). -/
def score_structural_patterns (hist : Historical) (now : ℤ) (decay : ℤ → ℚ)
    (sp : StructurePatterns) (context : ScoringContext) : List PatternScore :=
  [ freshScore hist now decay context
      ("function_length_" ++ Nat.repr sp.function_length_preference) 0.8 0.85 ]

/-- `PatternScoringEngine::apply_user_behavior_scoring`
(pattern_scoring_engine.rs 245-258). -/
def apply_user_behavior_scoring (user_behavior : BehaviorAnalysis)
    (scored_patterns : List PatternScore) : List PatternScore :=
  scored_patterns.map fun p =>
    { p with user_preference_score := calculate_user_preference_score p.pattern_id user_behavior }

/-- The composite formula of `calculate_composite_scores`
(pattern_scoring_engine.rs 260-271): weighted sum of the four sub-scores,
then boosted multiplicatively by the confidence score. -/
def compositeOf (cfg : ScoringConfiguration) (p : PatternScore) : ℚ :=
  (p.recency_score * cfg.recency_weight +
      p.frequency_score * cfg.frequency_weight +
      p.context_score * cfg.context_weight +
      p.user_preference_score * cfg.user_preference_weight) *
    p.confidence_score

/-- `PatternScoringEngine::calculate_composite_scores`
(pattern_scoring_engine.rs 260-271). -/
def calculate_composite_scores (cfg : ScoringConfiguration)
    (scored_patterns : List PatternScore) : List PatternScore :=
  scored_patterns.map fun p => { p with composite_score := compositeOf cfg p }

/-- The sort order of `score_patterns` (pattern_scoring_engine.rs 129):
`sort_by(|a, b| b.composite_score.partial_cmp(&a.composite_score).unwrap())`,
i.e. descending composite score and nothing else. -/
def compDesc (a b : PatternScore) : Prop := b.composite_score ≤ a.composite_score

instance : DecidableRel compDesc := fun a b =>
  inferInstanceAs (Decidable (b.composite_score ≤ a.composite_score))

instance : IsTotal PatternScore compDesc :=
  ⟨fun a b => le_total b.composite_score a.composite_score⟩

instance : IsTrans PatternScore compDesc :=
  ⟨fun _ _ _ h1 h2 => le_trans h2 h1⟩

/-- The scored-pattern list of `score_patterns` just before the sort
(pattern_scoring_engine.rs 115-126): the three scoring passes push in a fixed
order, then user-behavior scoring and composite scoring rewrite fields
in place. -/
def scored_unsorted (cfg : ScoringConfiguration) (hist : Historical) (now : ℤ)
    (decay : ℤ → ℚ) (analysis : PatternAnalysis) (user_behavior : BehaviorAnalysis)
    (context : ScoringContext) : List PatternScore :=
  let l :=
    score_naming_patterns hist now decay analysis.naming_conventions context ++
      score_style_patterns hist now decay analysis.style_metrics context ++
      score_structural_patterns hist now decay analysis.structure_patterns context
  calculate_composite_scores cfg (apply_user_behavior_scoring user_behavior l)

/-- The `scored_patterns` list returned by `PatternScoringEngine::score_patterns`
(pattern_scoring_engine.rs 109-145).  Rust `slice::sort_by` is a stable sort;
under the total preorder `compDesc` every stable sort produces the same list
as stable insertion sort, which is how the sort is modelled.  The subsequent
historical-map update and metric computations do not change this list. -/
def score_patterns (cfg : ScoringConfiguration) (hist : Historical) (now : ℤ)
    (decay : ℤ → ℚ) (analysis : PatternAnalysis) (user_behavior : BehaviorAnalysis)
    (context : ScoringContext) : List PatternScore :=
  (scored_unsorted cfg hist now decay analysis user_behavior context).insertionSort compDesc

/-! ## TTL caches (context_aware_filter.rs)

The three analyzers share one shape: look the key up, serve the entry if it
is not stale, otherwise recompute and overwrite.  Timestamps are Unix seconds
(`ℤ`); `chrono::Duration::minutes(5)`, `hours(1)` and `hours(24)` become the
second counts 300, 3600 and 86400.  A cache (`HashMap<String, _>`) is
modelled as its lookup function.  The content of a computed analysis does not
influence the caching discipline, so `perform_context_analysis(context)`,
`analyze_behavior_patterns(behavior)` and `perform_project_analysis(info)`
are abstracted as the `performed` argument (stamped with `now`, as the source
stamps each fresh analysis with `Utc::now()`); likewise
`generate_context_cache_key(context)` and `project_info.project_path` are
abstracted as the `cache_key` argument. -/

structure CacheEntry (α : Type) where
  value : α
  analysis_timestamp : ℤ
deriving DecidableEq, Repr

/-- TTL of `ContextAnalyzer::is_analysis_stale` (context_aware_filter.rs
653-656): five minutes. -/
def contextAnalysisTTL : ℤ := 5 * 60

/-- TTL of `ProjectAnalyzer::is_project_analysis_stale`
(context_aware_filter.rs 810-813): one hour. -/
def projectAnalysisTTL : ℤ := 60 * 60

/-- TTL of `PreferenceEngine::are_preferences_stale`
(context_aware_filter.rs 725-728): twenty-four hours. -/
def preferenceTTL : ℤ := 24 * 60 * 60

/-- A stale entry has age strictly above the TTL (`age > Duration::...`). -/
def isStaleAt (ttl now ts : ℤ) : Bool := ttl < now - ts

/-- `ContextAnalyzer::analyze_context` (context_aware_filter.rs 450-463):
serve a cached, non-stale analysis unchanged; otherwise compute a fresh one,
overwrite the entry and return it. -/
def analyze_context {α : Type} (now : ℤ) (cache : String → Option (CacheEntry α))
    (cache_key : String) (performed : α) :
    α × (String → Option (CacheEntry α)) :=
  match cache cache_key with
  | some cached =>
    if !isStaleAt contextAnalysisTTL now cached.analysis_timestamp then
      (cached.value, cache)
    else
      let fresh : CacheEntry α := ⟨performed, now⟩
      (performed, fun k => if k = cache_key then some fresh else cache k)
  | none =>
    let fresh : CacheEntry α := ⟨performed, now⟩
    (performed, fun k => if k = cache_key then some fresh else cache k)

/-- `PreferenceEngine::derive_preferences` (context_aware_filter.rs 674-688):
same discipline with the fixed key `"default_user"` and the 24-hour TTL. -/
def derive_preferences {α : Type} (now : ℤ) (cache : String → Option (CacheEntry α))
    (analyzed : α) : α × (String → Option (CacheEntry α)) :=
  match cache "default_user" with
  | some cached =>
    if !isStaleAt preferenceTTL now cached.analysis_timestamp then
      (cached.value, cache)
    else
      let fresh : CacheEntry α := ⟨analyzed, now⟩
      (analyzed, fun k => if k = "default_user" then some fresh else cache k)
  | none =>
    let fresh : CacheEntry α := ⟨analyzed, now⟩
    (analyzed, fun k => if k = "default_user" then some fresh else cache k)

/-- `ProjectAnalyzer::analyze_project` (context_aware_filter.rs 744-757):
same discipline keyed by the project path, with the one-hour TTL. -/
def analyze_project {α : Type} (now : ℤ) (cache : String → Option (CacheEntry α))
    (project_path : String) (performed : α) :
    α × (String → Option (CacheEntry α)) :=
  match cache project_path with
  | some cached =>
    if !isStaleAt projectAnalysisTTL now cached.analysis_timestamp then
      (cached.value, cache)
    else
      let fresh : CacheEntry α := ⟨performed, now⟩
      (performed, fun k => if k = project_path then some fresh else cache k)
  | none =>
    let fresh : CacheEntry α := ⟨performed, now⟩
    (performed, fun k => if k = project_path then some fresh else cache k)

/-! ## Suggestion confidence metrics (suggestion_generation_engine.rs) -/

inductive SuggestionType where
  | CodeCompletion
  | VariableNaming
  | FunctionSignature
  | StyleImprovement
  | StructuralRefactoring
  | ImportOptimization
  | Documentation
  | ErrorPrevention
deriving DecidableEq, Repr

/-- `CodeSuggestion` (suggestion_generation_engine.rs 44-60), restricted to
the fields read by `calculate_confidence_metrics`; the presentation fields
(title, description, position, preview, reasoning, related patterns) are
never read there. -/
structure CodeSuggestion where
  id : String
  suggestion_type : SuggestionType
  suggested_code : String
  confidence_score : ℚ
  pattern_match_score : ℚ
  user_preference_score : ℚ
  context_relevance : ℚ
deriving DecidableEq, Repr

structure ConfidenceMetrics where
  overall_confidence : ℚ
  pattern_confidence : ℚ
  context_confidence : ℚ
  user_alignment_confidence : ℚ
  suggestion_diversity : ℚ
deriving DecidableEq, Repr

/-- `SuggestionGenerationEngine::calculate_confidence_metrics`
(suggestion_generation_engine.rs 464-491).  The `scoring_result` parameter of
the source is unread and omitted.  An empty suggestion list short-circuits to
all-zero metrics; otherwise each metric is the arithmetic mean of the
corresponding sub-score, and diversity is the ratio of distinct suggestion
types (the `HashSet` cardinality) to the list length. -/
def calculate_confidence_metrics (suggestions : List CodeSuggestion) : ConfidenceMetrics :=
  if suggestions.isEmpty then
    { overall_confidence := 0
      pattern_confidence := 0
      context_confidence := 0
      user_alignment_confidence := 0
      suggestion_diversity := 0 }
  else
    let n : ℚ := suggestions.length
    { overall_confidence := ((suggestions.map CodeSuggestion.confidence_score).sum) / n
      pattern_confidence := ((suggestions.map CodeSuggestion.pattern_match_score).sum) / n
      context_confidence := ((suggestions.map CodeSuggestion.context_relevance).sum) / n
      user_alignment_confidence := ((suggestions.map CodeSuggestion.user_preference_score).sum) / n
      suggestion_diversity := (((suggestions.map CodeSuggestion.suggestion_type).dedup).length : ℚ) / n }

/-! ## Auxiliary instances and concrete inputs used by the theorems below -/

instance {ε α : Type} [DecidableEq ε] [DecidableEq α] : DecidableEq (Except ε α) := fun a b =>
  match a, b with
  | Except.error e1, Except.error e2 => decidable_of_iff (e1 = e2) (by simp)
  | Except.ok x, Except.ok y => decidable_of_iff (x = y) (by simp)
  | Except.error _, Except.ok _ => isFalse (by simp)
  | Except.ok _, Except.error _ => isFalse (by simp)

/-- Strict lexicographic comparison of character lists, modelling the `Ord`
instance of Rust strings on ASCII data. -/
def lexLtChars : List Char → List Char → Bool
  | [], [] => false
  | [], _ :: _ => true
  | _ :: _, [] => false
  | a :: s, b :: t => if a < b then true else if b < a then false else lexLtChars s t

/-- The ranking order asserted by the specification for claim C2 (not by the
source): descending composite score, ties by descending confidence score,
remaining ties by the pattern identity string. -/
def claimOrder (a b : PatternScore) : Prop :=
  b.composite_score < a.composite_score ∨
    (a.composite_score = b.composite_score ∧
      (b.confidence_score < a.confidence_score ∨
        (a.confidence_score = b.confidence_score ∧
          lexLtChars b.pattern_id.data a.pattern_id.data = false)))

instance : DecidableRel claimOrder := fun a b => by
  unfold claimOrder
  infer_instance

/-- Oracles accepting every input, for runs where the grammar accepts. -/
def acceptingOracles : GrammarOracles :=
  ⟨fun _ => Except.ok (), fun _ => Except.ok (), fun _ => Except.ok ()⟩

/-- Oracles rejecting every input, standing for a grammar rejection (the
repository test `test_invalid_javascript_syntax` exhibits such an input,
`"function broken syntax {{{{"`, for the real swc grammar). -/
def rejectingOracles : GrammarOracles :=
  ⟨fun _ => Except.error "rejected", fun _ => Except.error "rejected",
    fun _ => Except.error "rejected"⟩

/-- The input of end-to-end scenario 1 of the specification. -/
def scenarioInput : String := "function calculateSum(a, b) \x7b return a + b; \x7d"

/-- An empty historical-pattern map: every identity is new. -/
def emptyHistorical : Historical := fun _ => none

/-- A placeholder decay curve; it is never consulted on an empty history. -/
def constantDecay : ℤ → ℚ := fun _ => 1

def noBehavior : BehaviorAnalysis := ⟨(), (), (), (), ()⟩

/-- The pattern analysis the extractor produces for plain single-line input:
all naming pools empty (hence `Unknown`), default style metrics. -/
def plainAnalysis : PatternAnalysis :=
  { patterns := []
    style_metrics :=
      { indentation_type := IndentationType.Mixed
        indentation_size := 4
        brace_style := BraceStyle.Mixed
        line_length_preference := 45 }
    naming_conventions :=
      { function_naming := NamingStyle.Unknown
        variable_naming := NamingStyle.Unknown
        class_naming := NamingStyle.Unknown
        constant_naming := NamingStyle.Unknown
        file_naming := NamingStyle.Unknown }
    structure_patterns :=
      { preferred_file_organization := FileOrganization.Mixed
        function_length_preference := 20
        class_structure_preference := ClassStructure.Mixed
        import_organization := ImportStyle.Mixed } }

def plainContext : ScoringContext :=
  { current_file_type := "javascript"
    current_function_context := none
    recent_patterns := []
    time_of_day := 0
    project_context := "" }

/-- An all-zero weight configuration; the source accepts any weights through
`with_config` (the specification only asks that they sum to at most one). -/
def zeroWeightConfig : ScoringConfiguration :=
  { recency_weight := 0
    frequency_weight := 0
    context_weight := 0
    user_preference_weight := 0
    confidence_threshold := 0.6
    adaptive_learning_rate := 0.1 }

/-- A sample pattern score record for witnesses. -/
def samplePatternScore : PatternScore :=
  { pattern_id := "indentation_Spaces_4"
    relevance_score := 0.8
    confidence_score := 0.9
    frequency_score := 0.1
    recency_score := 1
    context_score := 0.5
    user_preference_score := 0.8
    composite_score := 0
    last_updated := 0
    usage_count := 1 }

/-- The five records produced by the zero-weight scoring run used against
claim C2: generation order naming (function, variable), style (indentation,
brace), structural (function length); every composite is zero. -/
def zw1 : PatternScore :=
  ⟨"function_naming_style_Unknown", 0.6, 0.8, 0.1, 1, 0.7, 0.8, 0, 0, 1⟩

def zw2 : PatternScore :=
  ⟨"variable_naming_style_Unknown", 0.6, 0.8, 0.1, 1, 0.7, 0.8, 0, 0, 1⟩

def zw3 : PatternScore := ⟨"indentation_Mixed_4", 0.8, 0.9, 0.1, 1, 0.7, 0.8, 0, 0, 1⟩

def zw4 : PatternScore := ⟨"brace_style_Mixed", 0.8, 0.9, 0.1, 1, 0.7, 0.8, 0, 0, 1⟩

def zw5 : PatternScore := ⟨"function_length_20", 0.8, 0.85, 0.1, 1, 0.7, 0.8, 0, 0, 1⟩

/-- A context cache holding the value `7` computed at time `0` under key
`"ctx"`. -/
def servedCache : String → Option (CacheEntry ℕ) :=
  fun k => if k = "ctx" then some ⟨7, 0⟩ else none

/-- A preference cache holding the value `7` computed at time `0` under the
fixed key `"default_user"`. -/
def userCache : String → Option (CacheEntry ℕ) :=
  fun k => if k = "default_user" then some ⟨7, 0⟩ else none

/-! ## Theorems for the claims -/

/-- Claim C10: when the final suggestion list is empty, all five aggregate
confidence metrics returned by `calculate_confidence_metrics` are exactly
zero, rather than an undefined mean over an empty list, and the function
produces this result totally (it has no error path). -/
theorem claim_C10_empty_suggestion_metrics :
    calculate_confidence_metrics [] =
      { overall_confidence := 0
        pattern_confidence := 0
        context_confidence := 0
        user_alignment_confidence := 0
        suggestion_diversity := 0 } := rfl

/-- Claim C3 (amended): the user-preference sub-score entering the composite
is always 0.8 — the base 0.5 plus an unconditional 0.3 increment, capped at
1.0 — for every pattern identity and every behavior model input; there is no
path on which the claimed 0.5 default is used. -/
theorem claim_C3_user_preference_constant :
    (∀ (pid : String) (behavior : BehaviorAnalysis),
        calculate_user_preference_score pid behavior = 4/5) ∧
    (∀ (behavior : BehaviorAnalysis) (l : List PatternScore),
        (apply_user_behavior_scoring behavior l).map PatternScore.user_preference_score =
          l.map fun _ => (4/5 : ℚ)) := by
  have h : ∀ (pid : String) (behavior : BehaviorAnalysis),
      calculate_user_preference_score pid behavior = 4/5 := by
    intro pid behavior
    unfold calculate_user_preference_score
    norm_num [min_def]
  refine ⟨h, ?_⟩
  intro behavior l
  induction l with
  | nil => rfl
  | cons a t ih => simpa [apply_user_behavior_scoring, h] using ih

/-- Claim C3 counterexample: on a concrete input the sub-score used in the
composite equals 0.8, not the claimed 0.5 default. -/
theorem claim_C3_counterexample :
    calculate_user_preference_score "function_naming_style_Unknown" noBehavior = 4/5 ∧
    (4/5 : ℚ) ≠ 1/2 := by
  constructor
  · unfold calculate_user_preference_score
    norm_num [min_def]
  · norm_num

/-- Claim C8: the composite score
`(recency*w_r + frequency*w_f + context*w_c + user_preference*w_u) * confidence`
of `calculate_composite_scores` is monotone non-decreasing in each of the four
sub-scores, the others held fixed, whenever the weights and the confidence are
non-negative (in particular on the claimed `[0,1]` ranges). -/
theorem claim_C8_composite_monotone :
    ∀ (cfg : ScoringConfiguration) (p : PatternScore) (x y : ℚ),
      0 ≤ cfg.recency_weight → 0 ≤ cfg.frequency_weight → 0 ≤ cfg.context_weight →
      0 ≤ cfg.user_preference_weight → 0 ≤ p.confidence_score → x ≤ y →
      compositeOf cfg { p with recency_score := x } ≤
          compositeOf cfg { p with recency_score := y } ∧
      compositeOf cfg { p with frequency_score := x } ≤
          compositeOf cfg { p with frequency_score := y } ∧
      compositeOf cfg { p with context_score := x } ≤
          compositeOf cfg { p with context_score := y } ∧
      compositeOf cfg { p with user_preference_score := x } ≤
          compositeOf cfg { p with user_preference_score := y } := by
  intro cfg p x y hr hf hc hu hconf hxy
  unfold compositeOf
  refine ⟨?_, ?_, ?_, ?_⟩ <;>
    · apply mul_le_mul_of_nonneg_right _ hconf
      simp only
      gcongr

/-- Witness for claim C8 at the default configuration and a concrete score. -/
theorem claim_C8_composite_monotone_witness :
    compositeOf defaultScoringConfiguration { samplePatternScore with recency_score := 0 } ≤
        compositeOf defaultScoringConfiguration { samplePatternScore with recency_score := 1 } ∧
    compositeOf defaultScoringConfiguration { samplePatternScore with frequency_score := 0 } ≤
        compositeOf defaultScoringConfiguration { samplePatternScore with frequency_score := 1 } ∧
    compositeOf defaultScoringConfiguration { samplePatternScore with context_score := 0 } ≤
        compositeOf defaultScoringConfiguration { samplePatternScore with context_score := 1 } ∧
    compositeOf defaultScoringConfiguration { samplePatternScore with user_preference_score := 0 } ≤
        compositeOf defaultScoringConfiguration { samplePatternScore with user_preference_score := 1 } :=
  claim_C8_composite_monotone defaultScoringConfiguration samplePatternScore 0 1
    (by norm_num [defaultScoringConfiguration]) (by norm_num [defaultScoringConfiguration])
    (by norm_num [defaultScoringConfiguration]) (by norm_num [defaultScoringConfiguration])
    (by norm_num [samplePatternScore]) (by norm_num)

/-- Claim C7 (amended): each of the three caches serves a cached entry exactly
while its age is at most its TTL — 300 s for context analysis, 3600 s for
project analysis, 86400 s for derived preferences — leaving the cache
untouched; on a read whose entry is strictly older than the TTL the value is
recomputed and the entry overwritten with the fresh timestamp.  Expiry is
only ever checked on these reads. -/
theorem claim_C7_cache_ttl :
    (contextAnalysisTTL = 300 ∧ projectAnalysisTTL = 3600 ∧ preferenceTTL = 86400) ∧
    (∀ (α : Type) (now : ℤ) (cache : String → Option (CacheEntry α)) (key : String)
        (performed : α) (e : CacheEntry α), cache key = some e →
        (now - e.analysis_timestamp ≤ contextAnalysisTTL →
            analyze_context now cache key performed = (e.value, cache)) ∧
        (contextAnalysisTTL < now - e.analysis_timestamp →
            analyze_context now cache key performed =
              (performed, fun k => if k = key then some ⟨performed, now⟩ else cache k))) ∧
    (∀ (α : Type) (now : ℤ) (cache : String → Option (CacheEntry α)) (analyzed : α)
        (e : CacheEntry α), cache "default_user" = some e →
        (now - e.analysis_timestamp ≤ preferenceTTL →
            derive_preferences now cache analyzed = (e.value, cache)) ∧
        (preferenceTTL < now - e.analysis_timestamp →
            derive_preferences now cache analyzed =
              (analyzed, fun k => if k = "default_user" then some ⟨analyzed, now⟩ else cache k))) ∧
    (∀ (α : Type) (now : ℤ) (cache : String → Option (CacheEntry α)) (project_path : String)
        (performed : α) (e : CacheEntry α), cache project_path = some e →
        (now - e.analysis_timestamp ≤ projectAnalysisTTL →
            analyze_project now cache project_path performed = (e.value, cache)) ∧
        (projectAnalysisTTL < now - e.analysis_timestamp →
            analyze_project now cache project_path performed =
              (performed, fun k => if k = project_path then some ⟨performed, now⟩ else cache k))) := by
  refine ⟨⟨by norm_num [contextAnalysisTTL], by norm_num [projectAnalysisTTL],
    by norm_num [preferenceTTL]⟩, ?_, ?_, ?_⟩
  · intro α now cache key performed e he
    constructor <;> intro h
    · have hs : isStaleAt contextAnalysisTTL now e.analysis_timestamp = false := by
        simp only [isStaleAt, decide_eq_false_iff_not]
        omega
      unfold analyze_context
      rw [he]
      simp [hs]
    · have hs : isStaleAt contextAnalysisTTL now e.analysis_timestamp = true := by
        simp only [isStaleAt, decide_eq_true_eq]
        omega
      unfold analyze_context
      rw [he]
      simp [hs]
  · intro α now cache analyzed e he
    constructor <;> intro h
    · have hs : isStaleAt preferenceTTL now e.analysis_timestamp = false := by
        simp only [isStaleAt, decide_eq_false_iff_not]
        omega
      unfold derive_preferences
      rw [he]
      simp [hs]
    · have hs : isStaleAt preferenceTTL now e.analysis_timestamp = true := by
        simp only [isStaleAt, decide_eq_true_eq]
        omega
      unfold derive_preferences
      rw [he]
      simp [hs]
  · intro α now cache project_path performed e he
    constructor <;> intro h
    · have hs : isStaleAt projectAnalysisTTL now e.analysis_timestamp = false := by
        simp only [isStaleAt, decide_eq_false_iff_not]
        omega
      unfold analyze_project
      rw [he]
      simp [hs]
    · have hs : isStaleAt projectAnalysisTTL now e.analysis_timestamp = true := by
        simp only [isStaleAt, decide_eq_true_eq]
        omega
      unfold analyze_project
      rw [he]
      simp [hs]

/-- Witness for claim C7: all three caches serve a 100-second-old entry. -/
theorem claim_C7_cache_ttl_witness :
    analyze_context 100 servedCache "ctx" 9 = (7, servedCache) ∧
    derive_preferences 100 userCache 9 = (7, userCache) ∧
    analyze_project 100 servedCache "ctx" 9 = (7, servedCache) := by
  obtain ⟨-, hctx, hpref, hproj⟩ := claim_C7_cache_ttl
  refine ⟨(hctx ℕ 100 servedCache "ctx" 9 ⟨7, 0⟩ (by decide)).1 (by decide),
    (hpref ℕ 100 userCache 9 ⟨7, 0⟩ (by decide)).1 (by decide),
    (hproj ℕ 100 servedCache "ctx" 9 ⟨7, 0⟩ (by decide)).1 (by decide)⟩

/-- Claim C7 counterexample: at age exactly equal to the TTL (300 s) the
context cache still serves the cached value `7` (it does not recompute to
`9`), so "a cached value is returned only while now - computed_at < TTL"
fails at the boundary. -/
theorem claim_C7_counterexample :
    (analyze_context 300 servedCache "ctx" 9).1 = 7 ∧
    ¬((300 : ℤ) - 0 < contextAnalysisTTL) ∧ (7 : ℕ) ≠ 9 := by
  refine ⟨by decide, by decide, by decide⟩

/-- Claim C1 (amended): the line-based fallback applies exactly to language
tags without a registered grammar — any tag whose lowercase form is not
javascript, typescript, python or rust — where parsing always succeeds with
the line representation and `extract_patterns` returns a result; for the
registered languages a grammar rejection is not degraded to the fallback:
`extract_patterns` propagates the parse error (as the parser tests of the
repository assert for concrete rejected inputs). -/
theorem claim_C1_fallback_scope :
    ∀ (o : GrammarOracles) (keyOrder : List ℕ) (code lang : String),
      (¬(lowerString lang = "javascript" ∨ lowerString lang = "typescript" ∨
            lowerString lang = "python" ∨ lowerString lang = "rust") →
          parse_code o code lang = Except.ok (ParsedAst.Generic (rustLines code)) ∧
          extract_patterns o keyOrder code lang =
            Except.ok
              { patterns := []
                style_metrics := analyze_style_metrics keyOrder code
                naming_conventions :=
                  analyze_naming_conventions (ParsedAst.Generic (rustLines code)) lang
                structure_patterns :=
                  analyze_structure_patterns (ParsedAst.Generic (rustLines code)) code lang }) ∧
      (∀ e, (lowerString lang = "javascript" ∨ lowerString lang = "typescript") →
          o.js code = Except.error e →
          extract_patterns o keyOrder code lang =
            Except.error ("JavaScript parsing error: " ++ e)) ∧
      (∀ e, lowerString lang = "python" → o.py code = Except.error e →
          extract_patterns o keyOrder code lang =
            Except.error ("Python parsing error: " ++ e)) ∧
      (∀ e, lowerString lang = "rust" → o.rs code = Except.error e →
          extract_patterns o keyOrder code lang =
            Except.error ("Rust parsing error: " ++ e)) := by
  intro o keyOrder code lang
  refine ⟨?_, ?_, ?_, ?_⟩
  · intro h
    push_neg at h
    obtain ⟨h1, h2, h3, h4⟩ := h
    have hp : parse_code o code lang = Except.ok (ParsedAst.Generic (rustLines code)) := by
      unfold parse_code
      rw [if_neg (not_or.mpr ⟨h1, h2⟩), if_neg h3, if_neg h4]
      rfl
    refine ⟨hp, ?_⟩
    unfold extract_patterns
    rw [hp]
    rfl
  · intro e hl he
    have hp : parse_code o code lang = Except.error ("JavaScript parsing error: " ++ e) := by
      unfold parse_code
      rw [if_pos hl]
      unfold parse_javascript
      rw [he]
    unfold extract_patterns
    rw [hp]
    rfl
  · intro e hl he
    have hp : parse_code o code lang = Except.error ("Python parsing error: " ++ e) := by
      unfold parse_code
      rw [hl, if_neg (by decide), if_pos rfl]
      unfold parse_python
      rw [he]
    unfold extract_patterns
    rw [hp]
    rfl
  · intro e hl he
    have hp : parse_code o code lang = Except.error ("Rust parsing error: " ++ e) := by
      unfold parse_code
      rw [hl, if_neg (by decide), if_neg (by decide), if_pos rfl]
      unfold parse_rust
      rw [he]
    unfold extract_patterns
    rw [hp]
    rfl

/-- Witness for claim C1: an unregistered tag falls back to the line
representation, and a rejected registered-language parse propagates. -/
theorem claim_C1_fallback_scope_witness :
    parse_code rejectingOracles "x + y" "plaintext" =
      Except.ok (ParsedAst.Generic (rustLines "x + y")) ∧
    extract_patterns rejectingOracles [] "def broken function syntax (((" "python" =
      Except.error ("Python parsing error: " ++ "rejected") := by
  refine ⟨?_, ?_⟩
  · exact ((claim_C1_fallback_scope rejectingOracles [] "x + y" "plaintext").1 (by decide)).1
  · exact (claim_C1_fallback_scope rejectingOracles []
      "def broken function syntax (((" "python").2.2.1 "rejected" (by decide) (by decide)

/-- Claim C1 counterexample: for a registered language whose grammar rejects
the input (the repository test input for invalid JavaScript, against a
rejecting grammar oracle), `extract_patterns` returns an error — it does not
degrade to the line-based fallback and produce a result. -/
theorem claim_C1_counterexample :
    extract_patterns rejectingOracles [] "function broken syntax \x7b\x7b\x7b\x7b" "javascript" =
      Except.error "JavaScript parsing error: rejected" := by decide

/-- Claim C6 (amended): on scenario-1 input
`"function calculateSum(a, b) { return a + b; }"` with language `javascript`,
`extract_patterns` succeeds for every accepting grammar oracle and every map
iteration order, and reports the default indentation size 4; but the brace
style is `Mixed`, not `SameLine` (a single line yields no adjacent line pair,
leaving both brace counters zero), and the pattern list is empty (the
per-category extractors are stubs), so no function-definition pattern is
reported. -/
theorem claim_C6_scenario1 :
    ∀ (o : GrammarOracles) (keyOrder : List ℕ) (t : Unit),
      o.js scenarioInput = Except.ok t →
      extract_patterns o keyOrder scenarioInput "javascript" =
        Except.ok
          { patterns := []
            style_metrics :=
              { indentation_type := IndentationType.Mixed
                indentation_size := 4
                brace_style := BraceStyle.Mixed
                line_length_preference := 45 }
            naming_conventions :=
              { function_naming := NamingStyle.Unknown
                variable_naming := NamingStyle.Unknown
                class_naming := NamingStyle.Unknown
                constant_naming := NamingStyle.Unknown
                file_naming := NamingStyle.Unknown }
            structure_patterns :=
              { preferred_file_organization := FileOrganization.Mixed
                function_length_preference := 20
                class_structure_preference := ClassStructure.Mixed
                import_organization := ImportStyle.Mixed } } := by
  intro o keyOrder t ht
  have hp : parse_code o scenarioInput "javascript" = Except.ok (ParsedAst.JavaScript t) := by
    unfold parse_code
    rw [if_pos (Or.inl (by decide))]
    unfold parse_javascript
    rw [ht]
  unfold extract_patterns
  rw [hp]
  rfl

/-- Witness for claim C6 with an accepting oracle (the real swc grammar
accepts this input, as the repository tests show for equivalent programs). -/
theorem claim_C6_scenario1_witness :
    extract_patterns acceptingOracles [] scenarioInput "javascript" =
      Except.ok
        { patterns := []
          style_metrics :=
            { indentation_type := IndentationType.Mixed
              indentation_size := 4
              brace_style := BraceStyle.Mixed
              line_length_preference := 45 }
          naming_conventions :=
            { function_naming := NamingStyle.Unknown
              variable_naming := NamingStyle.Unknown
              class_naming := NamingStyle.Unknown
              constant_naming := NamingStyle.Unknown
              file_naming := NamingStyle.Unknown }
          structure_patterns :=
            { preferred_file_organization := FileOrganization.Mixed
              function_length_preference := 20
              class_structure_preference := ClassStructure.Mixed
              import_organization := ImportStyle.Mixed } } :=
  claim_C6_scenario1 acceptingOracles [] () rfl

/-- Claim C6 counterexample: on the scenario-1 run the brace style is `Mixed`
and the pattern list is empty, contradicting the claimed `SameLine` style and
the claimed function-definition pattern (the indentation size 4 part holds). -/
theorem claim_C6_counterexample :
    (extract_patterns acceptingOracles [] scenarioInput "javascript").toOption.map
        (fun A => (A.patterns, A.style_metrics.brace_style, A.style_metrics.indentation_size)) =
      some ([], BraceStyle.Mixed, 4) ∧
    BraceStyle.Mixed ≠ BraceStyle.SameLine := by
  exact ⟨by decide, by decide⟩

/-- The fold inside `lastArgmax` returns an element of the scanned list whose
key is maximal (the last such element in scan order). -/
theorem foldl_max_spec (f : ℕ → ℕ) :
    ∀ (ks : List ℕ) (k : ℕ),
      ks.foldl (fun b k2 => if f b ≤ f k2 then k2 else b) k ∈ k :: ks ∧
      ∀ a ∈ k :: ks, f a ≤ f (ks.foldl (fun b k2 => if f b ≤ f k2 then k2 else b) k) := by
  intro ks
  induction ks with
  | nil =>
    intro k
    refine ⟨by simp, ?_⟩
    intro a ha
    simp only [List.foldl_nil]
    rw [List.mem_singleton] at ha
    rw [ha]
  | cons x t ih =>
    intro k
    simp only [List.foldl_cons]
    obtain ⟨hmem, hge⟩ := ih (if f k ≤ f x then x else k)
    constructor
    · rcases List.mem_cons.mp hmem with h | h
      · rw [h]
        split_ifs with hf
        · exact List.mem_cons_of_mem _ (List.mem_cons_self _ _)
        · exact List.mem_cons_self _ _
      · exact List.mem_cons_of_mem _ (List.mem_cons_of_mem _ h)
    · intro a ha
      rcases List.mem_cons.mp ha with rfl | ha2
      · have h1 : f a ≤ f (if f a ≤ f x then x else a) := by
          split_ifs with hf
          · exact hf
          · exact le_refl _
        exact le_trans h1 (hge _ (List.mem_cons_self _ _))
      · rcases List.mem_cons.mp ha2 with rfl | ha3
        · have h1 : f a ≤ f (if f k ≤ f a then a else k) := by
            split_ifs with hf
            · exact le_refl _
            · exact le_of_lt (lt_of_not_le hf)
          exact le_trans h1 (hge _ (List.mem_cons_self _ _))
        · exact hge a (List.mem_cons_of_mem _ ha3)

/-- Claim C5 (amended): the indentation detector picks the majority family
between leading-space and leading-tab lines (`Mixed` on an exact tie); with no
space-indented lines the declared size defaults to 4; with space-indented
lines the declared size is a most frequent run-length (a mode), but which of
several equally frequent run-lengths wins is decided by the unspecified hash
map iteration order — there is no preference for 4 on ties. -/
theorem claim_C5_indentation_majority_mode :
    ∀ (lines : List String) (keyOrder : List ℕ), validKeyOrder lines keyOrder →
      (spaceIndents lines > tabIndents lines →
          (detect_indentation keyOrder lines).1 = IndentationType.Spaces) ∧
      (tabIndents lines > spaceIndents lines →
          (detect_indentation keyOrder lines).1 = IndentationType.Tabs) ∧
      (spaceIndents lines = tabIndents lines →
          (detect_indentation keyOrder lines).1 = IndentationType.Mixed) ∧
      (spaceSizes lines = [] → (detect_indentation keyOrder lines).2 = 4) ∧
      (spaceSizes lines ≠ [] →
          (detect_indentation keyOrder lines).2 ∈ spaceSizes lines ∧
          ∀ k ∈ spaceSizes lines,
            (spaceSizes lines).count k ≤
              (spaceSizes lines).count ((detect_indentation keyOrder lines).2)) := by
  intro lines keyOrder hvalid
  refine ⟨?_, ?_, ?_, ?_, ?_⟩
  · intro h
    simp only [detect_indentation]
    rw [if_pos h]
  · intro h
    simp only [detect_indentation]
    rw [if_neg (by omega), if_pos h]
  · intro h
    simp only [detect_indentation]
    rw [if_neg (by omega), if_neg (by omega)]
  · intro h
    simp [detect_indentation, detect_indent_size, h]
  · intro h
    have hko : keyOrder ≠ [] := by
      intro hk
      apply h
      rw [hk] at hvalid
      exact (List.dedup_eq_nil _).mp (hvalid.symm.eq_nil)
    obtain ⟨k0, ks, rfl⟩ := List.exists_cons_of_ne_nil hko
    have hne : (spaceSizes lines).isEmpty = false := by
      cases hs : spaceSizes lines with
      | nil => exact absurd hs h
      | cons a t => rfl
    simp only [detect_indentation, detect_indent_size, hne, Bool.false_eq_true, if_false,
      lastArgmax, Option.getD_some]
    obtain ⟨hmem, hge⟩ := foldl_max_spec (fun k => (spaceSizes lines).count k) ks k0
    refine ⟨List.mem_dedup.mp (hvalid.mem_iff.mp hmem), ?_⟩
    intro k hk
    exact hge k (hvalid.mem_iff.mpr (List.mem_dedup.mpr hk))

/-- Witness for claim C5: the declared size on `["  a"]` under the only valid
iteration order is an actual space run-length of the input. -/
theorem claim_C5_indentation_witness :
    (detect_indentation [2] ["  a"]).2 ∈ spaceSizes ["  a"] :=
  ((claim_C5_indentation_majority_mode ["  a"] [2]
      (by unfold validKeyOrder; decide)).2.2.2.2 (by decide)).1

/-- Claim C5 counterexample: on four lines with run-lengths 2, 2, 4, 4 the
counts of 2 and 4 tie, and under the valid iteration order `[4, 2]` the
declared size is 2 — the tie is not broken by preferring 4. -/
theorem claim_C5_counterexample :
    validKeyOrder ["  a", "  b", "    c", "    d"] [4, 2] ∧
    (spaceSizes ["  a", "  b", "    c", "    d"]).count 2 =
      (spaceSizes ["  a", "  b", "    c", "    d"]).count 4 ∧
    (detect_indentation [4, 2] ["  a", "  b", "    c", "    d"]).2 = 2 ∧ (2 : ℕ) ≠ 4 := by
  refine ⟨by unfold validKeyOrder; decide, by decide, by decide, by decide⟩

/-- Claim C4 (amended): for every non-empty identifier set the detector
returns a style whose exclusive match count is the maximal count, and among
the styles attaining the maximum it picks the first in the fixed chain order
CamelCase, PascalCase, SnakeCase, KebabCase, ScreamingSnake.  Ties —
including the all-zero case where no identifier matches any regex — resolve
by that priority, so the result is never `Mixed` and never `Unknown` on a
non-empty set. -/
theorem claim_C4_priority_argmax :
    ∀ names : List String, names ≠ [] →
      styleCount names (detect_naming_style names) = maxStyleCount names ∧
      (∀ s : NamingStyle, styleCount names s ≤ maxStyleCount names) ∧
      (∀ s : NamingStyle, styleCount names s = maxStyleCount names →
          stylePriority (detect_naming_style names) ≤ stylePriority s) ∧
      detect_naming_style names ≠ NamingStyle.Mixed ∧
      detect_naming_style names ≠ NamingStyle.Unknown := by
  intro names hne
  have hE : names.isEmpty = false := by
    cases names with
    | nil => exact absurd rfl hne
    | cons a t => rfl
  unfold detect_naming_style maxStyleCount
  simp only [hE, Bool.false_eq_true, if_false]
  split_ifs with h1 h2 h3 h4 h5
  · refine ⟨?_, fun s => ?_, fun s hs => ?_, by decide, by decide⟩
    · simp only [styleCount]
      omega
    · cases s <;> simp only [styleCount] <;> omega
    · cases s <;> simp only [styleCount, stylePriority] at hs ⊢ <;> omega
  · refine ⟨?_, fun s => ?_, fun s hs => ?_, by decide, by decide⟩
    · simp only [styleCount]
      omega
    · cases s <;> simp only [styleCount] <;> omega
    · cases s <;> simp only [styleCount, stylePriority] at hs ⊢ <;> omega
  · refine ⟨?_, fun s => ?_, fun s hs => ?_, by decide, by decide⟩
    · simp only [styleCount]
      omega
    · cases s <;> simp only [styleCount] <;> omega
    · cases s <;> simp only [styleCount, stylePriority] at hs ⊢ <;> omega
  · refine ⟨?_, fun s => ?_, fun s hs => ?_, by decide, by decide⟩
    · simp only [styleCount]
      omega
    · cases s <;> simp only [styleCount] <;> omega
    · cases s <;> simp only [styleCount, stylePriority] at hs ⊢ <;> omega
  · refine ⟨?_, fun s => ?_, fun s hs => ?_, by decide, by decide⟩
    · simp only [styleCount]
      omega
    · cases s <;> simp only [styleCount] <;> omega
    · cases s <;> simp only [styleCount, stylePriority] at hs ⊢ <;> omega
  · exfalso
    omega

/-- Witness for claim C4 on a tied mixed set: the result is a specific style,
not `Mixed`. -/
theorem claim_C4_priority_argmax_witness :
    detect_naming_style ["myVar", "MyVar"] ≠ NamingStyle.Mixed :=
  (claim_C4_priority_argmax ["myVar", "MyVar"] (by decide)).2.2.2.1

/-- Claim C4 counterexample: the singleton set `["_x"]` matches none of the
five regexes (every count is zero), yet the detector answers `CamelCase`,
not `Mixed` or `Unknown`. -/
theorem claim_C4_counterexample :
    detect_naming_style ["_x"] = NamingStyle.CamelCase ∧
    camelCount ["_x"] = 0 ∧ pascalCount ["_x"] = 0 ∧ snakeCount ["_x"] = 0 ∧
    kebabCount ["_x"] = 0 ∧ screamingCount ["_x"] = 0 ∧
    NamingStyle.CamelCase ≠ NamingStyle.Mixed ∧
    NamingStyle.CamelCase ≠ NamingStyle.Unknown := by decide

/-- Claim C9: the naming-style detector counts each identifier toward at most
one style (the first matching regex in the chain order), so the five counts
sum to at most the set size; and every non-empty set of single-word
all-lowercase identifiers is classified `CamelCase` (the camel regex is
checked first), never `SnakeCase` or `KebabCase`. -/
theorem claim_C9_first_match_exclusive :
    ∀ names : List String,
      camelCount names + pascalCount names + snakeCount names + kebabCount names +
          screamingCount names ≤ names.length ∧
      (names ≠ [] →
        (∀ n ∈ names, n.data ≠ [] ∧ ∀ c ∈ n.data, isLowerAlpha c = true) →
        detect_naming_style names = NamingStyle.CamelCase) := by
  intro names
  constructor
  · induction names with
    | nil => simp [camelCount, pascalCount, snakeCount, kebabCount, screamingCount]
    | cons n t ih =>
      simp only [camelCount, pascalCount, snakeCount, kebabCount, screamingCount,
        List.countP_cons, List.length_cons] at ih ⊢
      by_cases hcm : camelCaseMatch n <;> by_cases hpm : pascalCaseMatch n <;>
        by_cases hsm : snakeCaseMatch n <;> by_cases hkm : kebabCaseMatch n <;>
        by_cases hscm : screamingSnakeMatch n <;>
        simp [hcm, hpm, hsm, hkm, hscm] <;> omega
  · intro hne hlow
    have hcm : ∀ n ∈ names, camelCaseMatch n = true := by
      intro n hn
      obtain ⟨hne2, hall⟩ := hlow n hn
      unfold camelCaseMatch
      cases hd : n.toList with
      | nil => exact absurd hd hne2
      | cons c cs =>
        have hc : c ∈ n.data := by
          rw [show n.data = c :: cs from hd]
          exact List.mem_cons_self c cs
        have hcs : ∀ d ∈ cs, d ∈ n.data := by
          intro d hd2
          rw [show n.data = c :: cs from hd]
          exact List.mem_cons_of_mem c hd2
        simp only [Bool.and_eq_true]
        refine ⟨hall c hc, ?_⟩
        rw [List.all_eq_true]
        intro d hd2
        simp [hall d (hcs d hd2)]
    have hc1 : camelCount names = names.length := by
      unfold camelCount
      exact List.countP_eq_length.mpr fun a ha => hcm a ha
    have hc2 : pascalCount names = 0 := by
      unfold pascalCount
      exact List.countP_eq_zero.mpr fun a ha => by simp [hcm a ha]
    have hc3 : snakeCount names = 0 := by
      unfold snakeCount
      exact List.countP_eq_zero.mpr fun a ha => by simp [hcm a ha]
    have hc4 : kebabCount names = 0 := by
      unfold kebabCount
      exact List.countP_eq_zero.mpr fun a ha => by simp [hcm a ha]
    have hc5 : screamingCount names = 0 := by
      unfold screamingCount
      exact List.countP_eq_zero.mpr fun a ha => by simp [hcm a ha]
    have hE : names.isEmpty = false := by
      cases names with
      | nil => exact absurd rfl hne
      | cons a t => rfl
    unfold detect_naming_style
    simp only [hE, Bool.false_eq_true, if_false]
    rw [if_pos]
    unfold maxStyleCount
    rw [hc1, hc2, hc3, hc4, hc5]
    simp

/-- Witness for claim C9: the all-lowercase single-word set `["data"]` is
classified `CamelCase`. -/
theorem claim_C9_first_match_exclusive_witness :
    detect_naming_style ["data"] = NamingStyle.CamelCase :=
  (claim_C9_first_match_exclusive ["data"]).2 (by decide) (by decide)

/-- Filtering by a fixed composite value commutes with `orderedInsert` under
`compDesc`: the inserted element lands before every element of equal
composite score. -/
theorem filter_orderedInsert_compDesc (q : ℚ) (x : PatternScore) (l : List PatternScore) :
    (List.orderedInsert compDesc x l).filter (fun p => p.composite_score == q) =
      if x.composite_score = q then
        x :: l.filter (fun p => p.composite_score == q)
      else l.filter (fun p => p.composite_score == q) := by
  induction l with
  | nil =>
    simp only [List.orderedInsert]
    by_cases hx : x.composite_score = q
    · simp [List.filter, hx]
    · have hbe : (x.composite_score == q) = false := by simp [hx]
      simp [List.filter, hbe, hx]
  | cons b m ih =>
    simp only [List.orderedInsert]
    by_cases hxb : compDesc x b
    · rw [if_pos hxb]
      by_cases hx : x.composite_score = q
      · simp [List.filter_cons, hx]
      · simp [List.filter_cons, hx]
    · rw [if_neg hxb]
      by_cases hx : x.composite_score = q
      · have hb : b.composite_score ≠ q := by
          intro hbq
          apply hxb
          unfold compDesc
          rw [hbq, hx]
        simp [List.filter_cons, hb, hx, ih]
      · simp [List.filter_cons, hx, ih]

/-- Stability of the modelled sort: filtering the sorted list down to any
fixed composite value returns those elements in their original order. -/
theorem filter_insertionSort_compDesc (q : ℚ) (l : List PatternScore) :
    (List.insertionSort compDesc l).filter (fun p => p.composite_score == q) =
      l.filter (fun p => p.composite_score == q) := by
  induction l with
  | nil => rfl
  | cons x t ih =>
    simp only [List.insertionSort]
    rw [filter_orderedInsert_compDesc]
    by_cases hx : x.composite_score = q
    · rw [if_pos hx, ih, List.filter_cons, if_pos (by simp [hx])]
    · rw [if_neg hx, ih, List.filter_cons, if_neg (by simp [hx])]

/-- Claim C2 (amended): the scored-pattern list returned by `score_patterns`
is the computed score list sorted in descending order of composite score and
nothing else — a permutation of the pre-sort list, sorted by `compDesc`, with
patterns of equal composite score kept in their generation order (the sort is
stable).  No tie-break by confidence or by identity string is applied. -/
theorem claim_C2_sort_descending_composite_only :
    ∀ (cfg : ScoringConfiguration) (hist : Historical) (now : ℤ) (decay : ℤ → ℚ)
      (analysis : PatternAnalysis) (user_behavior : BehaviorAnalysis)
      (context : ScoringContext),
      (score_patterns cfg hist now decay analysis user_behavior context).Perm
          (scored_unsorted cfg hist now decay analysis user_behavior context) ∧
      List.Sorted compDesc (score_patterns cfg hist now decay analysis user_behavior context) ∧
      ∀ q : ℚ,
        (score_patterns cfg hist now decay analysis user_behavior context).filter
            (fun p => p.composite_score == q) =
          (scored_unsorted cfg hist now decay analysis user_behavior context).filter
            (fun p => p.composite_score == q) := by
  intro cfg hist now decay analysis user_behavior context
  exact ⟨List.perm_insertionSort _ _, List.sorted_insertionSort _ _,
    fun q => filter_insertionSort_compDesc q _⟩

/-- The zero-weight scoring run computes exactly the five records
`zw1 ... zw5`, in generation order, before sorting. -/
theorem zeroWeight_unsorted :
    scored_unsorted zeroWeightConfig emptyHistorical 0 constantDecay plainAnalysis noBehavior
        plainContext = [zw1, zw2, zw3, zw4, zw5] := by
  norm_num [scored_unsorted, score_naming_patterns, score_style_patterns,
    score_structural_patterns, freshScore, apply_user_behavior_scoring,
    calculate_composite_scores, compositeOf, calculate_user_preference_score,
    calculate_frequency_score, calculate_recency_score, calculate_context_score,
    calculate_style_relevance, plainAnalysis, plainContext, zeroWeightConfig,
    emptyHistorical, noBehavior, constantDecay, debugNamingStyle, debugIndentationType,
    debugBraceStyle, strContains, containsSub, isPrefixList, min_def, zw1, zw2, zw3, zw4, zw5]
  simp
  decide

/-- On the zero-weight run every composite ties at 0, so the stable sort
returns the generation order unchanged. -/
theorem zeroWeight_sorted :
    score_patterns zeroWeightConfig emptyHistorical 0 constantDecay plainAnalysis noBehavior
        plainContext = [zw1, zw2, zw3, zw4, zw5] := by
  unfold score_patterns
  rw [zeroWeight_unsorted]
  norm_num [List.insertionSort, List.orderedInsert, compDesc, zw1, zw2, zw3, zw4, zw5]

/-- Claim C2 counterexample: on a legitimate scoring request (all weights
zero, so every composite ties at 0) the returned list keeps generation order:
a confidence-0.8 pattern precedes a confidence-0.9 pattern of equal
composite, so the list is not ordered by the claimed composite-then-
confidence-then-identity relation. -/
theorem claim_C2_counterexample :
    ¬ List.Pairwise claimOrder
        (score_patterns zeroWeightConfig emptyHistorical 0 constantDecay plainAnalysis
          noBehavior plainContext) ∧
    (score_patterns zeroWeightConfig emptyHistorical 0 constantDecay plainAnalysis noBehavior
          plainContext).map (fun p => (p.composite_score, p.confidence_score)) =
      [(0, 0.8), (0, 0.8), (0, 0.9), (0, 0.9), (0, 0.85)] := by
  constructor
  · rw [zeroWeight_sorted]
    intro hpw
    simp only [List.pairwise_cons] at hpw
    obtain ⟨-, h2, -⟩ := hpw
    have h := h2 zw3 (by simp)
    norm_num [claimOrder, zw2, zw3] at h
  · rw [zeroWeight_sorted]
    norm_num [zw1, zw2, zw3, zw4, zw5]

end CodeWhisperer
